import Mathlib

/-!
Shallow embedding of the LeafOS UEFI bootstrap translation unit
(`kernel/main.cpp` together with its `uefi.hpp` header).

The embedding models the observable behaviour of the kernel entry routine
`main` as a pure function from a firmware environment (the results the
firmware and the five subsystem initializers report) to the finite trace of
events emitted before the routine either returns a status to the firmware
loader or enters the non-returning steady-state loop.  Machine integers
(`UINTN`/`EFI_STATUS`, 64-bit on the targets the header selects) are `Nat`
reduced `% 2 ^ 64` where the width matters.
-/

namespace LeafOS

/-! ### Status codes (`uefi.hpp`) -/

def EFI_SUCCESS : Nat := 0
def EFI_LOAD_ERROR : Nat := 1
def EFI_INVALID_PARAMETER : Nat := 2
def EFI_UNSUPPORTED : Nat := 3
def EFI_BAD_BUFFER_SIZE : Nat := 4
def EFI_BUFFER_TOO_SMALL : Nat := 5
def EFI_NOT_READY : Nat := 6
def EFI_DEVICE_ERROR : Nat := 7
def EFI_WRITE_PROTECTED : Nat := 8
def EFI_OUT_OF_RESOURCES : Nat := 9
def EFI_NOT_FOUND : Nat := 14
def EFI_ABORTED : Nat := 21

/-- The status codes `#define`d in `uefi.hpp` from `EFI_LOAD_ERROR` through
`EFI_ABORTED` (all of them small positive values, without the high bit that
the UEFI specification's real error codes carry). -/
def uefiHeaderErrorCodes : List Nat :=
  [EFI_LOAD_ERROR, EFI_INVALID_PARAMETER, EFI_UNSUPPORTED, EFI_BAD_BUFFER_SIZE,
   EFI_BUFFER_TOO_SMALL, EFI_NOT_READY, EFI_DEVICE_ERROR, EFI_WRITE_PROTECTED,
   EFI_OUT_OF_RESOURCES, EFI_NOT_FOUND, EFI_ABORTED]

/-- Truncation to the 64-bit `UINTN` the header selects on x86-64. -/
def u64 (n : Nat) : Nat := n % 2 ^ 64

/-- `#define EFI_ERROR(Status) ((INTN)(Status) < 0)`: the 64-bit unsigned
status value, reinterpreted as a signed `INTN`, is negative exactly when its
high bit is set. -/
def EFI_ERROR (s : Nat) : Bool := 2 ^ 63 ≤ u64 s

/-! ### Diagnostic-channel messages emitted by `main`

One constructor per `debug_puts` call site in `main`; `msgText` gives the
exact byte string the source passes to `debug_puts` there. -/

inductive DiagMsg
  | bannerTop
  | bannerTitle
  | bannerBottom
  | startModules
  | fatalMemory
  | warnDevices
  | warnFileSystem
  | warnGraphics
  | fatalHotServices
  | exitingBootServices
  | errMemoryMapSize
  | errExitBootServices
  | exitedBootServices
  | completeTop
  | completeTitle
  | completeEnter
  | completeBottom
deriving DecidableEq, Repr

/-- The string each diagnostic call site passes to `debug_puts`. -/
def msgText : DiagMsg → String
  | DiagMsg.bannerTop => "\n\n========================================\n"
  | DiagMsg.bannerTitle => "    leafOS 内核 - UEFI启动\n"
  | DiagMsg.bannerBottom => "========================================\n\n"
  | DiagMsg.startModules => "[内核] 开始初始化内核模块...\n\n"
  | DiagMsg.fatalMemory => "[错误] 内存管理器初始化失败！\n"
  | DiagMsg.warnDevices => "[警告] 部分设备驱动初始化失败，继续启动...\n"
  | DiagMsg.warnFileSystem => "[警告] 文件系统初始化失败，继续启动...\n"
  | DiagMsg.warnGraphics => "[警告] 图形界面初始化失败，继续启动...\n"
  | DiagMsg.fatalHotServices => "[错误] 热服务初始化失败！\n"
  | DiagMsg.exitingBootServices => "\n[内核] 正在退出UEFI启动服务...\n"
  | DiagMsg.errMemoryMapSize => "[错误] 无法获取内存映射大小\n"
  | DiagMsg.errExitBootServices => "[错误] 无法退出启动服务\n"
  | DiagMsg.exitedBootServices => "[内核] 已成功退出UEFI启动服务\n"
  | DiagMsg.completeTop => "\n========================================\n"
  | DiagMsg.completeTitle => "    leafOS 内核启动完成！\n"
  | DiagMsg.completeEnter => "    正在进入内核主循环...\n"
  | DiagMsg.completeBottom => "========================================\n\n"

/-! ### Modules, events, firmware environment -/

/-- The five subsystems `main` bootstraps, in their fixed source order. -/
inductive Module
  | memory
  | devices
  | fileSystem
  | graphics
  | hotServices
deriving DecidableEq, Repr

/-- Observable events of a run of `main`:
* `puts m` — a `debug_puts` call in `main` (identified by call site, the
  string being `msgText m`) (module initializers are black
  boxes per the module-initializer contract; their internal prints are not
  part of the sequencer's trace);
* `call m` — invocation of module `m`'s initializer;
* `query zeroSized key` — a `GetMemoryMap` call (`zeroSized = true` is the
  size probe with a null buffer) leaving `key` in `mapKey`;
* `exitBS key` — an `ExitBootServices(ImageHandle, key)` call. -/
inductive Ev
  | puts (m : DiagMsg)
  | call (m : Module)
  | query (zeroSized : Bool) (key : Nat)
  | exitBS (key : Nat)
deriving DecidableEq, Repr

/-- Outcome of a run of `main`: either the routine returns a status code to
the firmware loader, or it enters the `while (true)` steady-state loop,
which contains no `break` or `return` and hence never returns. -/
inductive BootResult
  | ret (status : Nat)
  | loop
deriving DecidableEq, Repr

/-- The firmware double: what each subsystem initializer reports, and what
the firmware's `GetMemoryMap` size probe and `ExitBootServices` calls
report.  `probeMapKey` is the value the probe call leaves in the `mapKey`
variable (initialised to 0 by `main` and written by the firmware). -/
structure FirmwareEnv where
  initResult : Module → Bool
  probeStatus : Nat
  probeMapKey : Nat
  exitBSStatus : Nat

/-! ### The entry routine `main` -/

/-- Source phase 3 (`阶段3: 退出UEFI启动服务`): the boot-service exit
handshake of `main`, given the trace `tr` emitted so far.  The `mapKey`
variable (initialised to 0) is written by the zero-sized `GetMemoryMap`
probe; if the probe's status is anything but `EFI_BUFFER_TOO_SMALL` the
routine returns that status.  Otherwise — the snapshot query of the two
`TODO` comments is absent from the source — `ExitBootServices` is called
with the probe's `mapKey`; if `EFI_ERROR` flags its status the routine
returns it, else phase 4's steady-state loop is entered. -/
def phaseExit (env : FirmwareEnv) (tr : List Ev) : List Ev × BootResult :=
  let tr := tr ++ [Ev.puts DiagMsg.exitingBootServices]
  let status := u64 env.probeStatus
  let mapKey := u64 env.probeMapKey
  let tr := tr ++ [Ev.query true mapKey]
  if status ≠ EFI_BUFFER_TOO_SMALL then
    (tr ++ [Ev.puts DiagMsg.errMemoryMapSize], BootResult.ret status)
  else
    let tr := tr ++ [Ev.exitBS mapKey]
    let status := u64 env.exitBSStatus
    if EFI_ERROR status then
      (tr ++ [Ev.puts DiagMsg.errExitBootServices], BootResult.ret status)
    else
      (tr ++ [Ev.puts DiagMsg.exitedBootServices, Ev.puts DiagMsg.completeTop,
              Ev.puts DiagMsg.completeTitle, Ev.puts DiagMsg.completeEnter,
              Ev.puts DiagMsg.completeBottom],
       BootResult.loop)

/-- The kernel entry routine `main` of `kernel/main.cpp`, phase by phase:
banner, the five module initializers with their per-module severity policy
(phase 2), then the exit handshake `phaseExit` (phase 3, reaching phase 4's
loop on success).  Returns the event trace emitted up to the point where
the routine returns or enters the loop. -/
def main (env : FirmwareEnv) : List Ev × BootResult :=
  let tr := [Ev.puts DiagMsg.bannerTop, Ev.puts DiagMsg.bannerTitle,
             Ev.puts DiagMsg.bannerBottom, Ev.puts DiagMsg.startModules]
  let tr := tr ++ [Ev.call Module.memory]
  if !env.initResult Module.memory then
    (tr ++ [Ev.puts DiagMsg.fatalMemory], BootResult.ret EFI_OUT_OF_RESOURCES)
  else
    let tr := tr ++ [Ev.call Module.devices]
    let tr := if !env.initResult Module.devices then
                tr ++ [Ev.puts DiagMsg.warnDevices] else tr
    let tr := tr ++ [Ev.call Module.fileSystem]
    let tr := if !env.initResult Module.fileSystem then
                tr ++ [Ev.puts DiagMsg.warnFileSystem] else tr
    let tr := tr ++ [Ev.call Module.graphics]
    let tr := if !env.initResult Module.graphics then
                tr ++ [Ev.puts DiagMsg.warnGraphics] else tr
    let tr := tr ++ [Ev.call Module.hotServices]
    if !env.initResult Module.hotServices then
      (tr ++ [Ev.puts DiagMsg.fatalHotServices], BootResult.ret EFI_DEVICE_ERROR)
    else
      phaseExit env tr

/-! ### Trace observations -/

/-- The diagnostic-channel messages of a trace, in emission order. -/
def diagMsgs : List Ev → List DiagMsg
  | [] => []
  | Ev.puts m :: r => m :: diagMsgs r
  | _ :: r => diagMsgs r

/-- How many times the diagnostic message `m` was emitted in the trace. -/
def countMsg (m : DiagMsg) : List Ev → Nat
  | [] => 0
  | Ev.puts s :: r => (if s = m then 1 else 0) + countMsg m r
  | _ :: r => countMsg m r

/-- Fatal-module diagnostics emitted (the two `[错误] ...初始化失败` lines). -/
def fatalModuleCount (tr : List Ev) : Nat :=
  countMsg DiagMsg.fatalMemory tr + countMsg DiagMsg.fatalHotServices tr

/-- Recoverable-module warnings emitted (the three `[警告]` lines). -/
def warnCount (tr : List Ev) : Nat :=
  countMsg DiagMsg.warnDevices tr + countMsg DiagMsg.warnFileSystem tr +
    countMsg DiagMsg.warnGraphics tr

/-- The module initializers invoked, in invocation order. -/
def callEvents : List Ev → List Module
  | [] => []
  | Ev.call m :: r => m :: callEvents r
  | _ :: r => callEvents r

/-- The `GetMemoryMap` calls made: `(zeroSized, key)` pairs in call order. -/
def queryEvents : List Ev → List (Bool × Nat)
  | [] => []
  | Ev.query z k :: r => (z, k) :: queryEvents r
  | _ :: r => queryEvents r

/-- The `ExitBootServices` calls made: the map keys passed, in call order. -/
def exitEvents : List Ev → List Nat
  | [] => []
  | Ev.exitBS k :: r => k :: exitEvents r
  | _ :: r => exitEvents r

/-- The snapshot (non-zero-sized) `GetMemoryMap` calls of a trace: the calls
that could return an actual descriptor sequence. -/
def snapshotQueries (tr : List Ev) : List (Bool × Nat) :=
  (queryEvents tr).filter (fun q => !q.1)

/-! ### Low-level diagnostic channel (`debug_putc` / `debug_puts`)

The UART at port `0x3F8` is modelled by a trace of port operations: status
reads (the busy-wait `while (!(*uart & 0x20));`) and data writes.  The
firmware double supplies the sequence of status bytes the reads observe. -/

/-- One operation on the UART port: a status read observing byte `v`, or a
data write of byte `b`. -/
inductive PortOp
  | readS (v : Nat)
  | writeD (b : Nat)
deriving DecidableEq, Repr

/-- The busy-wait `while (!(*uart & 0x20));` of `debug_putc`: consume status
bytes until one with bit `0x20` set is read; returns the reads performed and
the remaining status supply, or `none` if the supply runs out while busy. -/
def waitTx : List Nat → Option (List PortOp × List Nat)
  | [] => none
  | v :: rest =>
    if v &&& 0x20 = 0 then
      match waitTx rest with
      | none => none
      | some (ops, r) => some (PortOp.readS v :: ops, r)
    else
      some ([PortOp.readS v], rest)

/-- `debug_putc(c)`: wait for the transmit buffer, write `c`, and if `c` is
a line feed recursively emit a carriage return (the recursion has depth one
since `'\r' ≠ '\n'`; it is inlined here). -/
def debug_putc (c : Nat) (sts : List Nat) : Option (List PortOp × List Nat) :=
  match waitTx sts with
  | none => none
  | some (ops, r) =>
    if c = 10 then
      match waitTx r with
      | none => none
      | some (ops2, r2) =>
        some (ops ++ [PortOp.writeD 10] ++ ops2 ++ [PortOp.writeD 13], r2)
    else
      some (ops ++ [PortOp.writeD c], r)

/-- `debug_puts(str)`: emit each byte of the buffer in order until the
terminating NUL (`while (*str) debug_putc(*str++);`). -/
def debug_puts (s : List Nat) (sts : List Nat) : Option (List PortOp × List Nat) :=
  match s with
  | [] => some ([], sts)
  | c :: r =>
    if c = 0 then some ([], sts)
    else
      match debug_putc c sts with
      | none => none
      | some (ops, sts2) =>
        match debug_puts r sts2 with
        | none => none
        | some (ops2, sts3) => some (ops ++ ops2, sts3)

/-- The bytes written to the UART data register by a port-operation trace. -/
def writesOf : List PortOp → List Nat
  | [] => []
  | PortOp.writeD b :: r => b :: writesOf r
  | _ :: r => writesOf r

/-- `waokFrom prevReady ops = true` iff every data write in `ops` happens
immediately after a status read that observed the transmit-buffer-empty bit
(`0x20`); `prevReady` says whether the operation just before `ops` was such
a read. -/
def waokFrom (prevReady : Bool) : List PortOp → Bool
  | [] => true
  | PortOp.writeD _ :: r => prevReady && waokFrom false r
  | PortOp.readS v :: r => waokFrom (decide (v &&& 0x20 ≠ 0)) r

/-- Every data write of the trace happens only after a status read that saw
the transmit-buffer-empty flag. -/
def writesAfterReady (ops : List PortOp) : Bool := waokFrom false ops

/-! ### Static initialization runner (`_init` / `_fini`)

The linker-provided `__init_array_start .. __init_array_end` region is
modelled as a function from array index to entry, `none` standing for a
null function pointer and `some f` for a (named) routine, together with the
number `n` of slots between the start and end symbols.  Invoking a routine
is recorded as the pair (index, routine). -/

/-- The loop body of `_init`: `for (ctor = start + i; ctor < end; ctor++)
if (*ctor) (*ctor)();` returning the invocations in execution order. -/
def initLoop (arr : Nat → Option Nat) (i n : Nat) : List (Nat × Nat) :=
  if _h : i < n then
    (match arr i with
     | some f => [(i, f)]
     | none => []) ++ initLoop arr (i + 1) n
  else []
termination_by n - i
decreasing_by omega

/-- `_init()`: walk the constructor array from `__init_array_start` to
`__init_array_end`, calling each non-null entry. -/
def _init (ctors : Nat → Option Nat) (n : Nat) : List (Nat × Nat) :=
  initLoop ctors 0 n

/-- The loop body of `_fini`, identical in structure to `initLoop` but over
the destructor array. -/
def finiLoop (arr : Nat → Option Nat) (i n : Nat) : List (Nat × Nat) :=
  if _h : i < n then
    (match arr i with
     | some f => [(i, f)]
     | none => []) ++ finiLoop arr (i + 1) n
  else []
termination_by n - i
decreasing_by omega

/-- `_fini()`: walk the destructor array from `__fini_array_start` to
`__fini_array_end`, calling each non-null entry. -/
def _fini (dtors : Nat → Option Nat) (n : Nat) : List (Nat × Nat) :=
  finiLoop dtors 0 n

/-! ## Helper lemmas: observations distribute over trace concatenation and
over the exit-handshake phase -/

@[simp] lemma diagMsgs_append (a b : List Ev) :
    diagMsgs (a ++ b) = diagMsgs a ++ diagMsgs b := by
  induction a with
  | nil => rfl
  | cons e r ih => cases e <;> simp [diagMsgs, ih]

@[simp] lemma countMsg_append (m : DiagMsg) (a b : List Ev) :
    countMsg m (a ++ b) = countMsg m a + countMsg m b := by
  induction a with
  | nil => simp [countMsg]
  | cons e r ih => cases e <;> simp [countMsg, ih, Nat.add_assoc]

@[simp] lemma callEvents_append (a b : List Ev) :
    callEvents (a ++ b) = callEvents a ++ callEvents b := by
  induction a with
  | nil => rfl
  | cons e r ih => cases e <;> simp [callEvents, ih]

@[simp] lemma queryEvents_append (a b : List Ev) :
    queryEvents (a ++ b) = queryEvents a ++ queryEvents b := by
  induction a with
  | nil => rfl
  | cons e r ih => cases e <;> simp [queryEvents, ih]

@[simp] lemma exitEvents_append (a b : List Ev) :
    exitEvents (a ++ b) = exitEvents a ++ exitEvents b := by
  induction a with
  | nil => rfl
  | cons e r ih => cases e <;> simp [exitEvents, ih]

/-- The exit handshake makes no module-initializer calls. -/
@[simp] lemma callEvents_phaseExit (env : FirmwareEnv) (tr : List Ev) :
    callEvents (phaseExit env tr).1 = callEvents tr := by
  by_cases hp : u64 env.probeStatus = EFI_BUFFER_TOO_SMALL <;>
  by_cases he : EFI_ERROR (u64 env.exitBSStatus) = true <;>
  simp [phaseExit, hp, he, callEvents]

/-- The exit handshake makes exactly one `GetMemoryMap` call: the
zero-sized size probe, which leaves the firmware's key in `mapKey`. -/
@[simp] lemma queryEvents_phaseExit (env : FirmwareEnv) (tr : List Ev) :
    queryEvents (phaseExit env tr).1 =
      queryEvents tr ++ [(true, u64 env.probeMapKey)] := by
  by_cases hp : u64 env.probeStatus = EFI_BUFFER_TOO_SMALL <;>
  by_cases he : EFI_ERROR (u64 env.exitBSStatus) = true <;>
  simp [phaseExit, hp, he, queryEvents]

/-- The exit handshake calls `ExitBootServices` — with the probe's map key —
exactly when the probe status was `EFI_BUFFER_TOO_SMALL`. -/
@[simp] lemma exitEvents_phaseExit (env : FirmwareEnv) (tr : List Ev) :
    exitEvents (phaseExit env tr).1 =
      exitEvents tr ++
        (if u64 env.probeStatus = EFI_BUFFER_TOO_SMALL then
          [u64 env.probeMapKey] else []) := by
  by_cases hp : u64 env.probeStatus = EFI_BUFFER_TOO_SMALL <;>
  by_cases he : EFI_ERROR (u64 env.exitBSStatus) = true <;>
  simp [phaseExit, hp, he, exitEvents]

/-- The exit handshake emits none of the five module diagnostics. -/
@[simp] lemma countMsg_phaseExit_module (env : FirmwareEnv) (tr : List Ev)
    (m : DiagMsg)
    (hmod : m = DiagMsg.fatalMemory ∨ m = DiagMsg.warnDevices ∨
      m = DiagMsg.warnFileSystem ∨ m = DiagMsg.warnGraphics ∨
      m = DiagMsg.fatalHotServices) :
    countMsg m (phaseExit env tr).1 = countMsg m tr := by
  by_cases hp : u64 env.probeStatus = EFI_BUFFER_TOO_SMALL <;>
  by_cases he : EFI_ERROR (u64 env.exitBSStatus) = true <;>
  rcases hmod with h | h | h | h | h <;>
  subst h <;>
  simp [phaseExit, hp, he, countMsg]

/-- The outcome of the exit handshake, independent of the incoming trace:
the probe's status propagated if it is not `EFI_BUFFER_TOO_SMALL`, the
exit status propagated if `EFI_ERROR` flags it, and the loop otherwise. -/
lemma phaseExit_snd (env : FirmwareEnv) (tr : List Ev) :
    (phaseExit env tr).2 =
      if u64 env.probeStatus ≠ EFI_BUFFER_TOO_SMALL then
        BootResult.ret (u64 env.probeStatus)
      else if EFI_ERROR (u64 env.exitBSStatus) then
        BootResult.ret (u64 env.exitBSStatus)
      else BootResult.loop := by
  by_cases hp : u64 env.probeStatus = EFI_BUFFER_TOO_SMALL <;>
  by_cases he : EFI_ERROR (u64 env.exitBSStatus) = true <;>
  simp [phaseExit, hp, he]

/-! ## Helper lemmas: the UART port-operation traces of the diagnostic
channel -/

@[simp] lemma writesOf_append (a b : List PortOp) :
    writesOf (a ++ b) = writesOf a ++ writesOf b := by
  induction a with
  | nil => rfl
  | cons o r ih => cases o <;> simp [writesOf, ih]

/-- The busy-wait performs no data writes. -/
lemma waitTx_writesOf : ∀ sts ops rest, waitTx sts = some (ops, rest) →
    writesOf ops = [] := by
  intro sts
  induction sts with
  | nil => intro ops rest h; simp [waitTx] at h
  | cons v r ih =>
    intro ops rest h
    simp only [waitTx] at h
    by_cases hv : v &&& 0x20 = 0
    · rw [if_pos hv] at h
      rcases hw : waitTx r with _ | ⟨ops1, r1⟩ <;> rw [hw] at h
      · simp at h
      · simp at h
        obtain ⟨rfl, rfl⟩ := h
        simpa [writesOf] using ih _ _ hw
    · rw [if_neg hv] at h
      simp at h
      obtain ⟨rfl, rfl⟩ := h
      simp [writesOf]

/-- The busy-wait's reads end on a ready status: any continuation after
them is checked as if the preceding operation were a ready read. -/
lemma waitTx_waokFrom : ∀ sts ops rest, waitTx sts = some (ops, rest) →
    ∀ (p : Bool) (l : List PortOp), waokFrom p (ops ++ l) = waokFrom true l := by
  intro sts
  induction sts with
  | nil => intro ops rest h; simp [waitTx] at h
  | cons v r ih =>
    intro ops rest h
    simp only [waitTx] at h
    by_cases hv : v &&& 0x20 = 0
    · rw [if_pos hv] at h
      rcases hw : waitTx r with _ | ⟨ops1, r1⟩ <;> rw [hw] at h
      · simp at h
      · simp at h
        obtain ⟨rfl, rfl⟩ := h
        intro p l
        simpa [waokFrom, hv] using ih _ _ hw false l
    · rw [if_neg hv] at h
      simp at h
      obtain ⟨rfl, rfl⟩ := h
      intro p l
      simp [waokFrom, hv]

/-- Data bytes written by one `debug_putc` call: the byte itself, followed
by a carriage return when the byte is a line feed. -/
lemma debug_putc_writesOf (c sts ops rest)
    (h : debug_putc c sts = some (ops, rest)) :
    writesOf ops = if c = 10 then [10, 13] else [c] := by
  simp only [debug_putc] at h
  split at h
  · simp at h
  · rename_i ops1 r1 hw
    split at h
    · rename_i hc
      subst hc
      split at h
      · simp at h
      · rename_i ops2 r2 hw2
        simp at h
        obtain ⟨rfl, rfl⟩ := h
        simp [writesOf, waitTx_writesOf _ _ _ hw, waitTx_writesOf _ _ _ hw2]
    · rename_i hc
      simp at h
      obtain ⟨rfl, rfl⟩ := h
      simp [writesOf, waitTx_writesOf _ _ _ hw, hc]

/-- Every write of one `debug_putc` call happens right after a ready status
read, and the call leaves the ready-state at `false` for what follows. -/
lemma debug_putc_waokFrom (c sts ops rest)
    (h : debug_putc c sts = some (ops, rest)) :
    ∀ (p : Bool) (l : List PortOp), waokFrom p (ops ++ l) = waokFrom false l := by
  simp only [debug_putc] at h
  split at h
  · simp at h
  · rename_i ops1 r1 hw
    split at h
    · rename_i hc
      subst hc
      split at h
      · simp at h
      · rename_i ops2 r2 hw2
        simp at h
        obtain ⟨rfl, rfl⟩ := h
        intro p l
        simp only [List.append_assoc, List.cons_append, List.singleton_append,
          List.nil_append]
        rw [waitTx_waokFrom _ _ _ hw]
        simp only [waokFrom, Bool.true_and]
        rw [waitTx_waokFrom _ _ _ hw2]
        simp [waokFrom]
    · rename_i hc
      simp at h
      obtain ⟨rfl, rfl⟩ := h
      intro p l
      rw [List.append_assoc, waitTx_waokFrom _ _ _ hw]
      simp [waokFrom]

/-- Data bytes written by `debug_puts`: the input bytes in order, a
carriage return inserted after every line feed. -/
lemma debug_puts_writesOf : ∀ s sts ops rest, (∀ c ∈ s, c ≠ 0) →
    debug_puts s sts = some (ops, rest) →
    writesOf ops = s.flatMap (fun c => if c = 10 then [10, 13] else [c]) := by
  intro s
  induction s with
  | nil =>
    intro sts ops rest _ h
    simp only [debug_puts] at h
    simp at h
    obtain ⟨rfl, rfl⟩ := h
    rfl
  | cons c r ih =>
    intro sts ops rest hz h
    have hc0 : c ≠ 0 := hz c (by simp)
    simp only [debug_puts] at h
    rw [if_neg hc0] at h
    split at h
    · simp at h
    · rename_i ops1 sts1 hp
      split at h
      · simp at h
      · rename_i ops2 sts2 hr
        simp at h
        obtain ⟨rfl, rfl⟩ := h
        have h1 := debug_putc_writesOf c sts ops1 sts1 hp
        have h2 := ih _ _ _ (fun d hd => hz d (by simp [hd])) hr
        simp [h1, h2]

/-- `debug_puts` writes only after ready status reads, leaving the
ready-state at `false`. -/
lemma debug_puts_waokFrom : ∀ s sts ops rest,
    debug_puts s sts = some (ops, rest) →
    ∀ l, waokFrom false (ops ++ l) = waokFrom false l := by
  intro s
  induction s with
  | nil =>
    intro sts ops rest h l
    simp only [debug_puts] at h
    simp at h
    obtain ⟨rfl, rfl⟩ := h
    rfl
  | cons c r ih =>
    intro sts ops rest h l
    by_cases hc0 : c = 0
    · subst hc0
      simp only [debug_puts] at h
      simp at h
      obtain ⟨rfl, rfl⟩ := h
      rfl
    · simp only [debug_puts] at h
      rw [if_neg hc0] at h
      split at h
      · simp at h
      · rename_i ops1 sts1 hp
        split at h
        · simp at h
        · rename_i ops2 sts2 hr
          simp at h
          obtain ⟨rfl, rfl⟩ := h
          rw [List.append_assoc, debug_putc_waokFrom c sts ops1 sts1 hp,
              ih _ _ _ hr]

/-! ## Helper lemmas: the constructor/destructor array walks -/

/-- The `_init` loop from index `i` over `k` remaining slots collects the
non-null entries, each tagged with its index, in ascending order. -/
lemma initLoop_eq (arr : Nat → Option Nat) :
    ∀ k i, initLoop arr i (i + k) =
      (List.range' i k).filterMap (fun j => (arr j).map (fun f => (j, f))) := by
  intro k
  induction k with
  | zero =>
    intro i
    rw [initLoop, dif_neg (by omega : ¬ i < i + 0)]
    simp
  | succ k ih =>
    intro i
    rw [initLoop, dif_pos (by omega : i < i + (k + 1))]
    have h1 : i + (k + 1) = (i + 1) + k := by omega
    rw [h1, ih (i + 1)]
    cases harr : arr i <;> simp [List.range', harr]

/-- The `_fini` loop collects the non-null destructor entries, each tagged
with its index, in ascending order. -/
lemma finiLoop_eq (arr : Nat → Option Nat) :
    ∀ k i, finiLoop arr i (i + k) =
      (List.range' i k).filterMap (fun j => (arr j).map (fun f => (j, f))) := by
  intro k
  induction k with
  | zero =>
    intro i
    rw [finiLoop, dif_neg (by omega : ¬ i < i + 0)]
    simp
  | succ k ih =>
    intro i
    rw [finiLoop, dif_pos (by omega : i < i + (k + 1))]
    have h1 : i + (k + 1) = (i + 1) + k := by omega
    rw [h1, ih (i + 1)]
    cases harr : arr i <;> simp [List.range', harr]

/-! ## Theorems -/

/-- **C3.** If the memory-manager initializer reports failure, `main`
returns `EFI_OUT_OF_RESOURCES` immediately: no initializer of any later
module is invoked, and exactly one fatal-module diagnostic is emitted on
the diagnostic channel. -/
theorem c3_memory_fatal_aborts_immediately (env : FirmwareEnv)
    (h : env.initResult Module.memory = false) :
    (main env).2 = BootResult.ret EFI_OUT_OF_RESOURCES ∧
    callEvents (main env).1 = [Module.memory] ∧
    fatalModuleCount (main env).1 = 1 := by
  simp [main, h, callEvents, fatalModuleCount, countMsg]

/-- Witness for C3: the concrete firmware double in which only the
memory-manager initializer fails. -/
def envMemFail : FirmwareEnv :=
  { initResult := fun m => match m with | Module.memory => false | _ => true,
    probeStatus := EFI_BUFFER_TOO_SMALL, probeMapKey := 42, exitBSStatus := 0 }

theorem c3_memory_fatal_aborts_immediately_witness :
    (main envMemFail).2 = BootResult.ret EFI_OUT_OF_RESOURCES ∧
    callEvents (main envMemFail).1 = [Module.memory] ∧
    fatalModuleCount (main envMemFail).1 = 1 :=
  c3_memory_fatal_aborts_immediately envMemFail rfl

/-- **C4.** Once the memory manager is up, every later module's initializer
is invoked regardless of recoverable failures; a failing recoverable module
(devices, filesystem, graphics) gets exactly one warning naming it; and in
the scenario where devices and graphics fail while memory, filesystem and
hot-services succeed, exactly two warnings are emitted and the run proceeds
to the exit handshake (the memory-map probe is made). -/
theorem c4_recoverable_failures_warn_and_continue (env : FirmwareEnv)
    (hm : env.initResult Module.memory = true) :
    callEvents (main env).1 =
      [Module.memory, Module.devices, Module.fileSystem, Module.graphics,
       Module.hotServices] ∧
    (env.initResult Module.devices = false →
      countMsg DiagMsg.warnDevices (main env).1 = 1) ∧
    (env.initResult Module.fileSystem = false →
      countMsg DiagMsg.warnFileSystem (main env).1 = 1) ∧
    (env.initResult Module.graphics = false →
      countMsg DiagMsg.warnGraphics (main env).1 = 1) ∧
    (env.initResult Module.devices = false →
     env.initResult Module.fileSystem = true →
     env.initResult Module.graphics = false →
     env.initResult Module.hotServices = true →
      warnCount (main env).1 = 2 ∧ (queryEvents (main env).1).length = 1) := by
  by_cases hd : env.initResult Module.devices <;>
  by_cases hf : env.initResult Module.fileSystem <;>
  by_cases hg : env.initResult Module.graphics <;>
  by_cases hh : env.initResult Module.hotServices <;>
  simp_all [main, callEvents, queryEvents, warnCount, countMsg]

/-- Witness for C4: the scenario firmware double where devices and graphics
fail and memory, filesystem and hot-services succeed. -/
def envDegraded : FirmwareEnv :=
  { initResult := fun m =>
      match m with
      | Module.devices => false
      | Module.graphics => false
      | _ => true,
    probeStatus := EFI_BUFFER_TOO_SMALL, probeMapKey := 42, exitBSStatus := 0 }

theorem c4_recoverable_failures_warn_and_continue_witness :
    callEvents (main envDegraded).1 =
      [Module.memory, Module.devices, Module.fileSystem, Module.graphics,
       Module.hotServices] ∧
    countMsg DiagMsg.warnDevices (main envDegraded).1 = 1 ∧
    countMsg DiagMsg.warnGraphics (main envDegraded).1 = 1 ∧
    warnCount (main envDegraded).1 = 2 ∧
    (queryEvents (main envDegraded).1).length = 1 := by
  obtain ⟨h1, h2, _, h4, h5⟩ :=
    c4_recoverable_failures_warn_and_continue envDegraded rfl
  exact ⟨h1, h2 rfl, h4 rfl, h5 rfl rfl rfl rfl⟩

/-- **C5.** If the hot-services initializer reports failure (on a run where
the memory manager came up), `main` emits the fatal hot-services diagnostic
and returns `EFI_DEVICE_ERROR`; no memory-map query and no exit call is
made, and the steady-state loop is never entered. -/
theorem c5_hot_services_fatal_aborts (env : FirmwareEnv)
    (hm : env.initResult Module.memory = true)
    (hh : env.initResult Module.hotServices = false) :
    (main env).2 = BootResult.ret EFI_DEVICE_ERROR ∧
    countMsg DiagMsg.fatalHotServices (main env).1 = 1 ∧
    queryEvents (main env).1 = [] ∧
    exitEvents (main env).1 = [] ∧
    (main env).2 ≠ BootResult.loop := by
  by_cases hd : env.initResult Module.devices <;>
  by_cases hf : env.initResult Module.fileSystem <;>
  by_cases hg : env.initResult Module.graphics <;>
  simp_all [main, queryEvents, exitEvents, countMsg]

/-- Witness for C5: the concrete firmware double in which only the
hot-services initializer fails. -/
def envHotFail : FirmwareEnv :=
  { initResult := fun m => match m with | Module.hotServices => false | _ => true,
    probeStatus := EFI_BUFFER_TOO_SMALL, probeMapKey := 42, exitBSStatus := 0 }

theorem c5_hot_services_fatal_aborts_witness :
    (main envHotFail).2 = BootResult.ret EFI_DEVICE_ERROR ∧
    countMsg DiagMsg.fatalHotServices (main envHotFail).1 = 1 ∧
    queryEvents (main envHotFail).1 = [] ∧
    exitEvents (main envHotFail).1 = [] ∧
    (main envHotFail).2 ≠ BootResult.loop :=
  c5_hot_services_fatal_aborts envHotFail rfl rfl

/-- Firmware double for C6's counterexample: every initializer succeeds and
the zero-sized `GetMemoryMap` probe reports `EFI_SUCCESS`. -/
def envProbeSuccess : FirmwareEnv :=
  { initResult := fun _ => true,
    probeStatus := EFI_SUCCESS, probeMapKey := 42, exitBSStatus := EFI_SUCCESS }

/-- **C6, counterexample.** When the size probe returns success, `main`
returns `EFI_SUCCESS` — the probe's own status — to the firmware loader,
not the device-error signal the claim asserts (no snapshot call and no exit
call is made, as the claim also says). -/
theorem c6_counterexample_probe_success_returns_success :
    (main envProbeSuccess).2 = BootResult.ret EFI_SUCCESS ∧
    EFI_SUCCESS ≠ EFI_DEVICE_ERROR ∧
    snapshotQueries (main envProbeSuccess).1 = [] ∧
    exitEvents (main envProbeSuccess).1 = [] := by
  decide

/-- **C6, amended.** In the size-probe phase, for every outcome of the
zero-sized memory-map query other than `EFI_BUFFER_TOO_SMALL` — including
success — the boot aborts returning that outcome's own status value (not
necessarily the device-error signal), and no snapshot call and no exit call
is attempted. -/
theorem c6_probe_unexpected_status_aborts_with_probe_status
    (env : FirmwareEnv)
    (hm : env.initResult Module.memory = true)
    (hh : env.initResult Module.hotServices = true)
    (hp : u64 env.probeStatus ≠ EFI_BUFFER_TOO_SMALL) :
    (main env).2 = BootResult.ret (u64 env.probeStatus) ∧
    snapshotQueries (main env).1 = [] ∧
    exitEvents (main env).1 = [] := by
  by_cases hd : env.initResult Module.devices <;>
  by_cases hf : env.initResult Module.fileSystem <;>
  by_cases hg : env.initResult Module.graphics <;>
  simp_all [main, phaseExit_snd, snapshotQueries, queryEvents, exitEvents]

/-- Firmware double witnessing the amended C6: the probe reports
`EFI_UNSUPPORTED`. -/
def envProbeUnsupported : FirmwareEnv :=
  { initResult := fun _ => true,
    probeStatus := EFI_UNSUPPORTED, probeMapKey := 7, exitBSStatus := EFI_SUCCESS }

theorem c6_probe_unexpected_status_aborts_with_probe_status_witness :
    (main envProbeUnsupported).2 =
      BootResult.ret (u64 envProbeUnsupported.probeStatus) ∧
    snapshotQueries (main envProbeUnsupported).1 = [] ∧
    exitEvents (main envProbeUnsupported).1 = [] :=
  c6_probe_unexpected_status_aborts_with_probe_status envProbeUnsupported
    rfl rfl (by decide)

/-- Firmware double for C7's counterexample: every initializer succeeds and
the size probe reports `EFI_NOT_READY`. -/
def envProbeNotReady : FirmwareEnv :=
  { initResult := fun _ => true,
    probeStatus := EFI_NOT_READY, probeMapKey := 42, exitBSStatus := EFI_SUCCESS }

/-- **C7, counterexample.** `main` can return a status that is neither the
resource-exhaustion nor the device-error abort signal: when the size probe
reports `EFI_NOT_READY`, that status itself is returned to the loader. -/
theorem c7_counterexample_returns_third_status :
    (main envProbeNotReady).2 = BootResult.ret EFI_NOT_READY ∧
    EFI_NOT_READY ≠ EFI_OUT_OF_RESOURCES ∧
    EFI_NOT_READY ≠ EFI_DEVICE_ERROR := by
  decide

/-- **C7, amended.** For every run of the entry routine, the value returned
to the firmware loader is `EFI_OUT_OF_RESOURCES`, `EFI_DEVICE_ERROR`, or a
status propagated verbatim from the failed memory-map probe or exit call;
and the routine never returns (enters the steady-state loop) exactly when
both fatal modules come up, the probe reports `EFI_BUFFER_TOO_SMALL`, and
`EFI_ERROR` does not flag the exit status. -/
theorem c7_outcomes (env : FirmwareEnv) :
    ((main env).2 = BootResult.loop ↔
      (env.initResult Module.memory = true ∧
       env.initResult Module.hotServices = true ∧
       u64 env.probeStatus = EFI_BUFFER_TOO_SMALL ∧
       EFI_ERROR (u64 env.exitBSStatus) = false)) ∧
    ((main env).2 = BootResult.ret EFI_OUT_OF_RESOURCES ∨
     (main env).2 = BootResult.ret EFI_DEVICE_ERROR ∨
     (main env).2 = BootResult.ret (u64 env.probeStatus) ∨
     (main env).2 = BootResult.ret (u64 env.exitBSStatus) ∨
     (main env).2 = BootResult.loop) := by
  by_cases hm : env.initResult Module.memory <;>
  by_cases hh : env.initResult Module.hotServices <;>
  by_cases hp : u64 env.probeStatus = EFI_BUFFER_TOO_SMALL <;>
  by_cases he : EFI_ERROR (u64 env.exitBSStatus) = true <;>
  by_cases hd : env.initResult Module.devices <;>
  by_cases hf : env.initResult Module.fileSystem <;>
  by_cases hg : env.initResult Module.graphics <;>
  simp_all [main, phaseExit_snd]

/-- Firmware double for the proceed case: everything succeeds, the probe
reports `EFI_BUFFER_TOO_SMALL`, and the exit call reports `EFI_SUCCESS`. -/
def envProceed : FirmwareEnv :=
  { initResult := fun _ => true,
    probeStatus := EFI_BUFFER_TOO_SMALL, probeMapKey := 42,
    exitBSStatus := EFI_SUCCESS }

theorem c7_outcomes_witness : (main envProceed).2 = BootResult.loop :=
  (c7_outcomes envProceed).1.mpr ⟨rfl, rfl, by decide, by decide⟩

/-- Firmware double exhibiting C1's failing run: every initializer succeeds
and the zero-sized probe fails with `EFI_BUFFER_TOO_SMALL` (as expected),
leaving map key 42. -/
def envProbeKey : FirmwareEnv :=
  { initResult := fun _ => true,
    probeStatus := EFI_BUFFER_TOO_SMALL, probeMapKey := 42,
    exitBSStatus := EFI_SUCCESS }

/-- **C1, evaluation at the failing input.** On a run reaching the exit
phase, the only memory-map query ever made is the zero-sized size probe
(which failed with `EFI_BUFFER_TOO_SMALL`); no snapshot query exists, and
`ExitBootServices` is nevertheless called — with the map key left by that
failed probe. -/
theorem c1_exit_uses_failed_probe_key :
    envProbeKey.probeStatus = EFI_BUFFER_TOO_SMALL ∧
    queryEvents (main envProbeKey).1 = [(true, 42)] ∧
    snapshotQueries (main envProbeKey).1 = [] ∧
    exitEvents (main envProbeKey).1 = [42] := by
  decide

/-- Firmware double exhibiting C2's failing input: the exit call fails with
the UEFI stale-map-key status `EFI_INVALID_PARAMETER`, carried with the
high error bit the real firmware sets (`0x8000000000000002`). -/
def envStaleKey : FirmwareEnv :=
  { initResult := fun _ => true,
    probeStatus := EFI_BUFFER_TOO_SMALL, probeMapKey := 42,
    exitBSStatus := 2 ^ 63 + EFI_INVALID_PARAMETER }

/-- **C2, evaluation at the failing input.** When `ExitBootServices` fails
with a stale-key status, `main` returns that status at once: exactly one
memory-map query (the probe) and exactly one exit call were ever made — the
query is never re-run and the exit is never retried. -/
theorem c2_no_requery_on_stale_key :
    EFI_ERROR envStaleKey.exitBSStatus = true ∧
    (main envStaleKey).2 = BootResult.ret (2 ^ 63 + EFI_INVALID_PARAMETER) ∧
    (queryEvents (main envStaleKey).1).length = 1 ∧
    (exitEvents (main envStaleKey).1).length = 1 := by
  decide

/-- **C8.** `EFI_ERROR` is false on every status code the header defines
(`EFI_LOAD_ERROR` through `EFI_ABORTED`, all small positive values, lacking
the high bit the macro tests); consequently, when `ExitBootServices`
returns any of those codes on a run that reaches it, the failure branch is
not taken and the kernel proceeds into the steady-state loop. -/
theorem c8_efi_error_misses_header_codes :
    (∀ s ∈ uefiHeaderErrorCodes, EFI_ERROR s = false) ∧
    (∀ env : FirmwareEnv, env.initResult Module.memory = true →
      env.initResult Module.hotServices = true →
      u64 env.probeStatus = EFI_BUFFER_TOO_SMALL →
      env.exitBSStatus ∈ uefiHeaderErrorCodes →
      (main env).2 = BootResult.loop) := by
  refine ⟨by decide, ?_⟩
  intro env hm hh hp hc
  have he : EFI_ERROR (u64 env.exitBSStatus) = false := by
    simp [uefiHeaderErrorCodes] at hc
    rcases hc with h | h | h | h | h | h | h | h | h | h | h <;> rw [h] <;> decide
  by_cases hd : env.initResult Module.devices <;>
  by_cases hf : env.initResult Module.fileSystem <;>
  by_cases hg : env.initResult Module.graphics <;>
  simp_all [main, phaseExit_snd]

/-- Firmware double for C8's witness: the exit call reports the header's
`EFI_DEVICE_ERROR` (7). -/
def envExitHeaderError : FirmwareEnv :=
  { initResult := fun _ => true,
    probeStatus := EFI_BUFFER_TOO_SMALL, probeMapKey := 42,
    exitBSStatus := EFI_DEVICE_ERROR }

theorem c8_efi_error_misses_header_codes_witness :
    EFI_ERROR EFI_DEVICE_ERROR = false ∧
    (main envExitHeaderError).2 = BootResult.loop :=
  ⟨c8_efi_error_misses_header_codes.1 EFI_DEVICE_ERROR (by decide),
   c8_efi_error_misses_header_codes.2 envExitHeaderError rfl rfl (by decide)
     (by decide)⟩

/-- **C9.** Given any status supply under which `debug_puts` completes, the
bytes written to the UART data register are exactly the input bytes in
input order, with a carriage return emitted immediately after every line
feed; and every byte is written only after a status read observed the
transmit-buffer-empty flag. -/
theorem c9_diag_channel_order (s sts : List Nat) (ops : List PortOp)
    (rest : List Nat) (hz : ∀ c ∈ s, c ≠ 0)
    (h : debug_puts s sts = some (ops, rest)) :
    writesOf ops = s.flatMap (fun c => if c = 10 then [10, 13] else [c]) ∧
    writesAfterReady ops = true := by
  refine ⟨debug_puts_writesOf s sts ops rest hz h, ?_⟩
  have h2 := debug_puts_waokFrom s sts ops rest h []
  rw [List.append_nil] at h2
  simpa [writesAfterReady, waokFrom] using h2

theorem c9_diag_channel_order_witness :
    writesOf [PortOp.readS 32, PortOp.writeD 104, PortOp.readS 32,
        PortOp.writeD 10, PortOp.readS 32, PortOp.writeD 13] =
      ([104, 10] : List Nat).flatMap (fun c => if c = 10 then [10, 13] else [c]) ∧
    writesAfterReady [PortOp.readS 32, PortOp.writeD 104, PortOp.readS 32,
        PortOp.writeD 10, PortOp.readS 32, PortOp.writeD 13] = true :=
  c9_diag_channel_order [104, 10] [32, 32, 32]
    [PortOp.readS 32, PortOp.writeD 104, PortOp.readS 32, PortOp.writeD 10,
     PortOp.readS 32, PortOp.writeD 13] []
    (by decide) (by decide)

/-- **C10.** `_init` invokes the entries of the constructor array in
ascending index order, invoking each non-null entry exactly once and
skipping null entries — its invocation trace is exactly the array's
non-null entries indexed in order — and `_fini` does the same over the
destructor array. -/
theorem c10_static_init_runners (ctors dtors : Nat → Option Nat) (n m : Nat) :
    _init ctors n =
      (List.range n).filterMap (fun i => (ctors i).map (fun f => (i, f))) ∧
    _fini dtors m =
      (List.range m).filterMap (fun i => (dtors i).map (fun f => (i, f))) := by
  constructor
  · rw [_init, List.range_eq_range']
    simpa using initLoop_eq ctors n 0
  · rw [_fini, List.range_eq_range']
    simpa using finiLoop_eq dtors m 0

end LeafOS
